import Mathlib

/-!
# Verification of `src/backend/services/redisService.js`

A shallow embedding of the `RedisService` class: a Redis-backed session /
participant store with an in-memory fallback used whenever the connection
is down or a remote operation raises.

Modelling choices:
* JS values stored as session state are modelled by a `Json` inductive;
  `JSON.parse (JSON.stringify v)` is the identity on this data model, so the
  remote key/value store holds the `Json` value directly.
* Time (`Date.now()`) is an explicit `now : Int` parameter (milliseconds).
* Each remote client call (`setEx`, `get`, `del`, `hSet`, `expire`, `hDel`,
  `hGetAll`, `publish`, `subscribe`, `ping`, `disconnect`) may reject; this is
  modelled by an explicit boolean error flag per call.  A rejecting call has
  no effect on the remote state.
* An `async` method that can reject is an `Except` computation whose error
  carries the message and the service state at throw time (`this` is shared
  between the `try` body and the `catch` handler, and remote mutations that
  happened before the throw persist).
* The JS `Map` fallback store keys are the strings `session:${id}` and
  `participants:${id}`; the two prefixes are disjoint, so keys are modelled
  by the inductive `FKey` with one constructor per prefix.
-/

set_option autoImplicit false

namespace RedisService

/-- The JSON data model (payloads stored by callers). -/
inductive Json where
  | null : Json
  | bool (b : Bool) : Json
  | num (n : Int) : Json
  | str (s : String) : Json
  | arr (xs : List Json) : Json
  | obj (kvs : List (String × Json)) : Json

/-- A participant record: an `id` plus arbitrary payload. -/
structure Participant where
  id : String
  payload : Json

/-- Fallback-store keys: `session:${id}` or `participants:${id}` (the two
string prefixes are disjoint, so the keys are modelled structurally). -/
inductive FKey where
  | session (id : String) : FKey
  | participants (id : String) : FKey
deriving DecidableEq, Repr

/-- A fallback session entry `{ data, expires }` (expiry in ms since epoch). -/
structure SessionEntry where
  data : Json
  expires : Int

/-- A fallback-store value: either a session entry object or a participant
array (which kind is determined by the key prefix). -/
inductive FVal where
  | entry (e : SessionEntry) : FVal
  | plist (ps : List Participant) : FVal

/-- A remote key/value entry written by `setEx`: the stored value plus its
absolute expiry time. -/
structure RemoteKVEntry where
  data : Json
  expiresAt : Int

/-- A remote hash (participant collection): its fields and an optional
absolute expiry time (`none` = no TTL set). -/
structure RemoteHashEntry where
  fields : List (String × Participant)
  expiresAt : Option Int

section AssocList

variable {κ α : Type} [DecidableEq κ]

/-- Association-list lookup (first binding wins), as `Map.get`. -/
def alGet : List (κ × α) → κ → Option α
  | [], _ => none
  | (k', v) :: rest, k => if k' = k then some v else alGet rest k

/-- Association-list insert/replace, as `Map.set` (replaces the first
binding in place, or appends). -/
def alSet : List (κ × α) → κ → α → List (κ × α)
  | [], k, v => [(k, v)]
  | (k', v') :: rest, k, v =>
      if k' = k then (k, v) :: rest else (k', v') :: alSet rest k v

/-- Association-list delete, as `Map.delete`. -/
def alDel : List (κ × α) → κ → List (κ × α)
  | [], _ => []
  | (k', v') :: rest, k =>
      if k' = k then alDel rest k else (k', v') :: alDel rest k

@[simp] theorem alGet_nil (k : κ) : alGet ([] : List (κ × α)) k = none := rfl

@[simp] theorem alGet_alSet_self (l : List (κ × α)) (k : κ) (v : α) :
    alGet (alSet l k v) k = some v := by
  induction l with
  | nil => simp [alGet, alSet]
  | cons hd tl ih =>
      obtain ⟨k', v'⟩ := hd
      by_cases h : k' = k <;> simp [alGet, alSet, h, ih]

theorem alGet_alSet_ne (l : List (κ × α)) (k k' : κ) (v : α) (h : k' ≠ k) :
    alGet (alSet l k v) k' = alGet l k' := by
  induction l with
  | nil => simp [alGet, alSet, Ne.symm h]
  | cons hd tl ih =>
      obtain ⟨k₀, v₀⟩ := hd
      by_cases hk : k₀ = k
      · subst hk
        simp [alGet, alSet, Ne.symm h]
      · by_cases hk' : k₀ = k' <;>
          simp [alGet, alSet, hk, hk', h, Ne.symm h, ih]

theorem alGet_alDel_ne (l : List (κ × α)) (k k' : κ) (h : k' ≠ k) :
    alGet (alDel l k) k' = alGet l k' := by
  induction l with
  | nil => simp [alDel]
  | cons hd tl ih =>
      obtain ⟨k₀, v₀⟩ := hd
      by_cases hk : k₀ = k
      · subst hk
        simp [alGet, alDel, Ne.symm h, ih]
      · by_cases hk' : k₀ = k' <;>
          simp [alGet, alDel, hk, hk', h, Ne.symm h, ih]

/-- Re-inserting the value already present at a key leaves the list as is. -/
theorem alSet_self (l : List (κ × α)) (k : κ) (v : α)
    (h : alGet l k = some v) : alSet l k v = l := by
  induction l with
  | nil => simp [alGet] at h
  | cons hd tl ih =>
      obtain ⟨k₀, v₀⟩ := hd
      by_cases hk : k₀ = k
      · subst hk
        simp [alGet] at h
        simp [alSet, h]
      · simp [alGet, hk] at h
        simp [alSet, hk, ih h]

/-- Deleting an absent key is a no-op. -/
theorem alDel_not_mem (l : List (κ × α)) (k : κ)
    (h : alGet l k = none) : alDel l k = l := by
  induction l with
  | nil => rfl
  | cons hd tl ih =>
      obtain ⟨k₀, v₀⟩ := hd
      by_cases hk : k₀ = k
      · simp [alGet, hk] at h
      · simp [alGet, hk] at h
        simp [alDel, hk, ih h]

end AssocList

/-- The full observable state of the service: the connectivity flag, the
in-memory fallback `Map`, the remote key/value store, the remote hashes,
the set of subscribed channels, the publish log, and the closed flags of
the three redis clients. -/
structure ServiceState where
  isConnected : Bool
  fallbackStore : List (FKey × FVal)
  remoteKV : List (FKey × RemoteKVEntry)
  remoteHash : List (FKey × RemoteHashEntry)
  subscriptions : List String
  published : List (String × String)
  clientClosed : Bool
  publisherClosed : Bool
  subscriberClosed : Bool

/-- Async methods: resolve with an `α`, or reject carrying the error message
together with the service state at throw time. -/
abbrev M (α : Type) : Type := Except (String × ServiceState) α

/-- JS `try { body } catch (e) { handler }`. -/
def tryE {α : Type} (body : M α) (handler : String × ServiceState → M α) : M α :=
  match body with
  | Except.ok a => Except.ok a
  | Except.error e => handler e

/-- One remote client call: rejects (leaving the pre-call state) when its
error flag is set, otherwise resolves to the post-call state. -/
def rstep (err : Bool) (msg : String) (pre post : ServiceState) : M ServiceState :=
  if err then Except.error (msg, pre) else Except.ok post

/-- `this.maxRetries = 5` (constructor). -/
def maxRetries : Nat := 5

/-- `reconnectStrategy` (socket option): `none` models `return false`
(stop reconnecting), `some d` a backoff delay of `d` milliseconds. -/
def reconnectStrategy (maxR : Nat) (retries : Nat) : Option Nat :=
  if retries > maxR then none else some (min (retries * 100) 3000)

/-- Redis key liveness for a kv entry (`setEx` keys always carry a TTL). -/
def aliveKV (e : RemoteKVEntry) (now : Int) : Bool :=
  decide (e.expiresAt > now)

/-- `client.get k`: the stored value, if the key is present and alive. -/
def remoteGet (kv : List (FKey × RemoteKVEntry)) (k : FKey) (now : Int) :
    Option Json :=
  match alGet kv k with
  | some e => if aliveKV e now then some e.data else none
  | none => none

/-- Redis key liveness for a hash (`none` expiry = persistent key). -/
def aliveH (e : RemoteHashEntry) (now : Int) : Bool :=
  match e.expiresAt with
  | none => true
  | some t => decide (t > now)

/-- `client.hSet k f v`: sets one field; an absent or expired key becomes a
fresh persistent hash holding just that field. -/
def hSetRemote (h : List (FKey × RemoteHashEntry)) (k : FKey) (f : String)
    (p : Participant) (now : Int) : List (FKey × RemoteHashEntry) :=
  match alGet h k with
  | some e =>
      if aliveH e now then alSet h k ⟨alSet e.fields f p, e.expiresAt⟩
      else alSet h k ⟨[(f, p)], none⟩
  | none => alSet h k ⟨[(f, p)], none⟩

/-- `client.hDel k f`: removes one field from a live hash. -/
def hDelRemote (h : List (FKey × RemoteHashEntry)) (k : FKey) (f : String)
    (now : Int) : List (FKey × RemoteHashEntry) :=
  match alGet h k with
  | some e => if aliveH e now then alSet h k ⟨alDel e.fields f, e.expiresAt⟩ else h
  | none => h

/-- `client.expire k ttl`: sets the absolute expiry of a live key. -/
def expireRemote (h : List (FKey × RemoteHashEntry)) (k : FKey)
    (ttlSeconds : Int) (now : Int) : List (FKey × RemoteHashEntry) :=
  match alGet h k with
  | some e =>
      if aliveH e now then alSet h k ⟨e.fields, some (now + ttlSeconds * 1000)⟩
      else h
  | none => h

/-- `Object.values(await client.hGetAll k).map(JSON.parse)`. -/
def hGetAllRemote (h : List (FKey × RemoteHashEntry)) (k : FKey) (now : Int) :
    List Participant :=
  match alGet h k with
  | some e => if aliveH e now then e.fields.map Prod.snd else []
  | none => []

/-- `this.fallbackStore.get(participantsKey) || []` (a participants key only
ever holds an array, so any other shape reads as the empty collection). -/
def fbGetParticipants (store : List (FKey × FVal)) (sessionId : String) :
    List Participant :=
  match alGet store (FKey.participants sessionId) with
  | some (FVal.plist ps) => ps
  | _ => []

/-- The fallback half of `addParticipant`: drop any record with the new
record's id, then push it (lines 179-182 and 196-200). -/
def fbAddParticipant (store : List (FKey × FVal)) (sessionId : String)
    (p : Participant) : List (FKey × FVal) :=
  alSet store (FKey.participants sessionId)
    (FVal.plist ((fbGetParticipants store sessionId).filter
      (fun q => !(q.id == p.id)) ++ [p]))

/-- The fallback half of `removeParticipant` (lines 208-211 and 224-227). -/
def fbRemoveParticipant (store : List (FKey × FVal)) (sessionId : String)
    (participantId : String) : List (FKey × FVal) :=
  alSet store (FKey.participants sessionId)
    (FVal.plist ((fbGetParticipants store sessionId).filter
      (fun q => !(q.id == participantId))))

/-- The fallback write of `setSessionState` (lines 106-109 and 121-124). -/
def fbSetSession (store : List (FKey × FVal)) (sessionId : String)
    (state : Json) (expireSeconds now : Int) : List (FKey × FVal) :=
  alSet store (FKey.session sessionId)
    (FVal.entry ⟨state, now + expireSeconds * 1000⟩)

/-- `setSessionState(sessionId, state, expireSeconds = 3600)`
(lines 102-127). -/
def setSessionState (st : ServiceState) (sessionId : String) (state : Json)
    (expireSeconds : Int) (now : Int) (setExErr : Bool) :
    M (Bool × ServiceState) :=
  tryE
    (if !st.isConnected then
      Except.ok (true,
        { st with fallbackStore := fbSetSession st.fallbackStore sessionId state expireSeconds now })
    else
      match rstep setExErr "setEx" st { st with remoteKV := alSet st.remoteKV (FKey.session sessionId) (RemoteKVEntry.mk state (now + expireSeconds * 1000)) } with
      | Except.ok st1 => Except.ok (true, st1)
      | Except.error e => Except.error e)
    (fun err => Except.ok (true,
      { err.2 with fallbackStore := fbSetSession err.2.fallbackStore sessionId state expireSeconds now }))

/-- `getSessionState(sessionId)` (lines 129-153). -/
def getSessionState (st : ServiceState) (sessionId : String) (now : Int)
    (getErr : Bool) : M (Option Json × ServiceState) :=
  tryE
    (if !st.isConnected then
      match alGet st.fallbackStore (FKey.session sessionId) with
      | some (FVal.entry e) =>
          if e.expires > now then Except.ok (some e.data, st)
          else Except.ok (none,
            { st with fallbackStore := alDel st.fallbackStore (FKey.session sessionId) })
      | _ => Except.ok (none,
          { st with fallbackStore := alDel st.fallbackStore (FKey.session sessionId) })
    else
      match rstep getErr "get" st st with
      | Except.ok st1 => Except.ok (remoteGet st1.remoteKV (FKey.session sessionId) now, st1)
      | Except.error e => Except.error e)
    (fun err =>
      match alGet err.2.fallbackStore (FKey.session sessionId) with
      | some (FVal.entry e) =>
          if e.expires > now then Except.ok (some e.data, err.2)
          else Except.ok (none, err.2)
      | _ => Except.ok (none, err.2))

/-- `deleteSessionState(sessionId)` (lines 155-172). -/
def deleteSessionState (st : ServiceState) (sessionId : String)
    (delErr : Bool) : M (Bool × ServiceState) :=
  tryE
    (if !st.isConnected then
      Except.ok (true,
        { st with fallbackStore := alDel st.fallbackStore (FKey.session sessionId) })
    else
      match rstep delErr "del" st { st with remoteKV := alDel st.remoteKV (FKey.session sessionId) } with
      | Except.ok st1 => Except.ok (true, st1)
      | Except.error e => Except.error e)
    (fun err => Except.ok (true,
      { err.2 with fallbackStore := alDel err.2.fallbackStore (FKey.session sessionId) }))

/-- `addParticipant(sessionId, participant)` (lines 175-203): on the remote
path, `hSet` then `expire key 3600`. -/
def addParticipant (st : ServiceState) (sessionId : String) (p : Participant)
    (now : Int) (hSetErr expireErr : Bool) : M (Bool × ServiceState) :=
  tryE
    (if !st.isConnected then
      Except.ok (true,
        { st with fallbackStore := fbAddParticipant st.fallbackStore sessionId p })
    else
      match rstep hSetErr "hSet" st { st with remoteHash := hSetRemote st.remoteHash (FKey.participants sessionId) p.id p now } with
      | Except.ok st1 =>
        match rstep expireErr "expire" st1 { st1 with remoteHash := expireRemote st1.remoteHash (FKey.participants sessionId) 3600 now } with
        | Except.ok st2 => Except.ok (true, st2)
        | Except.error e => Except.error e
      | Except.error e => Except.error e)
    (fun err => Except.ok (true,
      { err.2 with fallbackStore := fbAddParticipant err.2.fallbackStore sessionId p }))

/-- `removeParticipant(sessionId, participantId)` (lines 205-230). -/
def removeParticipant (st : ServiceState) (sessionId : String)
    (participantId : String) (now : Int) (hDelErr : Bool) :
    M (Bool × ServiceState) :=
  tryE
    (if !st.isConnected then
      Except.ok (true,
        { st with fallbackStore := fbRemoveParticipant st.fallbackStore sessionId participantId })
    else
      match rstep hDelErr "hDel" st { st with remoteHash := hDelRemote st.remoteHash (FKey.participants sessionId) participantId now } with
      | Except.ok st1 => Except.ok (true, st1)
      | Except.error e => Except.error e)
    (fun err => Except.ok (true,
      { err.2 with fallbackStore := fbRemoveParticipant err.2.fallbackStore sessionId participantId }))

/-- `getParticipants(sessionId)` (lines 232-246). -/
def getParticipants (st : ServiceState) (sessionId : String) (now : Int)
    (hGetAllErr : Bool) : M (List Participant × ServiceState) :=
  tryE
    (if !st.isConnected then
      Except.ok (fbGetParticipants st.fallbackStore sessionId, st)
    else
      match rstep hGetAllErr "hGetAll" st st with
      | Except.ok st1 => Except.ok (hGetAllRemote st1.remoteHash (FKey.participants sessionId) now, st1)
      | Except.error e => Except.error e)
    (fun err => Except.ok (fbGetParticipants err.2.fallbackStore sessionId, err.2))

/-- `publishEvent(channel, event, data)` (lines 249-266); the publish log
records the channel and event name of each delivered publish. -/
def publishEvent (st : ServiceState) (channel event : String)
    (pubErr : Bool) : M (Bool × ServiceState) :=
  tryE
    (if !st.isConnected then
      Except.ok (true, st)
    else
      match rstep pubErr "publish" st { st with published := st.published ++ [(channel, event)] } with
      | Except.ok st1 => Except.ok (true, st1)
      | Except.error e => Except.error e)
    (fun err => Except.ok (true, err.2))

/-- The three possible results of `subscribeToEvents`: the literal `true`
of the disconnected path, a live subscriber handle, or `null`. -/
inductive SubscribeResult where
  | boolRes (b : Bool) : SubscribeResult
  | handle (n : Nat) : SubscribeResult
  | nullRes : SubscribeResult
deriving DecidableEq, Repr

/-- `subscribeToEvents(channel, callback)` (lines 268-292); a successful
subscribe registers the channel and returns a handle. -/
def subscribeToEvents (st : ServiceState) (channel : String)
    (subErr : Bool) : M (SubscribeResult × ServiceState) :=
  tryE
    (if !st.isConnected then
      Except.ok (SubscribeResult.boolRes true, st)
    else
      match rstep subErr "subscribe" st { st with subscriptions := st.subscriptions ++ [channel] } with
      | Except.ok st1 => Except.ok (SubscribeResult.handle st.subscriptions.length, st1)
      | Except.error e => Except.error e)
    (fun err => Except.ok (SubscribeResult.nullRes, err.2))

/-- The object returned by `healthCheck` (lines 295-315). -/
structure HealthResult where
  status : String
  mode : String
  connected : Bool
  errMsg : Option String
deriving DecidableEq, Repr

/-- `healthCheck()` (lines 295-315); `pingReply` is the reply of a
successful `client.ping()`. -/
def healthCheck (st : ServiceState) (pingErr : Bool) (pingReply : String) :
    M (HealthResult × ServiceState) :=
  tryE
    (if !st.isConnected then
      Except.ok (⟨"fallback", "in-memory", false, none⟩, st)
    else
      match rstep pingErr "ping" st st with
      | Except.ok st1 =>
        Except.ok
          (⟨if pingReply = "PONG" then "connected" else "error", "redis",
            st1.isConnected, none⟩, st1)
      | Except.error e => Except.error e)
    (fun err => Except.ok (⟨"fallback", "in-memory", false, some err.1⟩, err.2))

/-- `disconnect()` (lines 318-331): one `try` around the three client
closes, then `fallbackStore.clear()` outside the `try`. -/
def disconnect (st : ServiceState) (clientErr pubErr subErr : Bool) :
    M (Unit × ServiceState) :=
  match tryE
    (match rstep clientErr "client.disconnect" st { st with clientClosed := true } with
      | Except.ok s1 =>
        match rstep pubErr "publisher.disconnect" s1 { s1 with publisherClosed := true } with
        | Except.ok s2 =>
          match rstep subErr "subscriber.disconnect" s2 { s2 with subscriberClosed := true } with
          | Except.ok s3 => Except.ok s3
          | Except.error e => Except.error e
        | Except.error e => Except.error e
      | Except.error e => Except.error e)
    (fun err => Except.ok err.2) with
  | Except.ok s => Except.ok ((), { s with fallbackStore := [] })
  | Except.error e => Except.error e

/-- The `this` object after a method ran, whether it resolved or rejected. -/
def resultState {α : Type} (r : M (α × ServiceState)) : ServiceState :=
  match r with
  | Except.ok (_, s) => s
  | Except.error (_, s) => s

/-- The participant list a caller observes from `getParticipants` (the
method never rejects; the error arm is unreachable). -/
def partsResult (st : ServiceState) (sessionId : String) (now : Int)
    (hGetAllErr : Bool) : List Participant :=
  match getParticipants st sessionId now hGetAllErr with
  | Except.ok (l, _) => l
  | Except.error _ => []

/-- The participant collection held for a session by the fallback store. -/
def fbParts (st : ServiceState) (sessionId : String) : List Participant :=
  fbGetParticipants st.fallbackStore sessionId

/-- What a fallback read of a session key yields at time `now`
(`none` for an absent or expired entry). -/
def fbSessionLookup (st : ServiceState) (sessionId : String) (now : Int) :
    Option Json :=
  match alGet st.fallbackStore (FKey.session sessionId) with
  | some (FVal.entry e) => if e.expires > now then some e.data else none
  | _ => none

/-- A service state with empty stores and the given connectivity flag. -/
def emptyState (conn : Bool) : ServiceState :=
  ⟨conn, [], [], [], [], [], false, false, false⟩

/-- Every method resolves with `Except.ok`; the write-style methods resolve
to `true` on every path. -/
theorem setSessionState_total (st : ServiceState) (sid : String) (v : Json)
    (ttl now : Int) (err : Bool) :
    ∃ s, setSessionState st sid v ttl now err = Except.ok (true, s) := by
  obtain ⟨c, fb, kv, hsh, subs, pub, c1, c2, c3⟩ := st
  cases c <;> cases err <;> exact ⟨_, rfl⟩

theorem tryE_total {α β : Type} (body : M (α × β))
    (handler : String × ServiceState → M (α × β))
    (hh : ∀ x, ∃ r s, handler x = Except.ok (r, s)) :
    ∃ r s, tryE body handler = Except.ok (r, s) := by
  cases body with
  | ok a => exact ⟨a.1, a.2, rfl⟩
  | error e => exact hh e

theorem getSessionState_total (st : ServiceState) (sid : String) (now : Int)
    (err : Bool) :
    ∃ r s, getSessionState st sid now err = Except.ok (r, s) := by
  unfold getSessionState
  apply tryE_total
  intro x
  split
  · split
    · exact ⟨_, _, rfl⟩
    · exact ⟨_, _, rfl⟩
  · exact ⟨_, _, rfl⟩

theorem deleteSessionState_total (st : ServiceState) (sid : String)
    (err : Bool) :
    ∃ s, deleteSessionState st sid err = Except.ok (true, s) := by
  obtain ⟨c, fb, kv, hsh, subs, pub, c1, c2, c3⟩ := st
  cases c <;> cases err <;> exact ⟨_, rfl⟩

theorem addParticipant_total (st : ServiceState) (sid : String)
    (p : Participant) (now : Int) (e1 e2 : Bool) :
    ∃ s, addParticipant st sid p now e1 e2 = Except.ok (true, s) := by
  obtain ⟨c, fb, kv, hsh, subs, pub, c1, c2, c3⟩ := st
  cases c <;> cases e1 <;> cases e2 <;> exact ⟨_, rfl⟩

theorem removeParticipant_total (st : ServiceState) (sid pid : String)
    (now : Int) (err : Bool) :
    ∃ s, removeParticipant st sid pid now err = Except.ok (true, s) := by
  obtain ⟨c, fb, kv, hsh, subs, pub, c1, c2, c3⟩ := st
  cases c <;> cases err <;> exact ⟨_, rfl⟩

theorem getParticipants_total (st : ServiceState) (sid : String) (now : Int)
    (err : Bool) :
    ∃ l s, getParticipants st sid now err = Except.ok (l, s) := by
  obtain ⟨c, fb, kv, hsh, subs, pub, c1, c2, c3⟩ := st
  cases c <;> cases err <;> exact ⟨_, _, rfl⟩

theorem publishEvent_total (st : ServiceState) (ch ev : String) (err : Bool) :
    ∃ s, publishEvent st ch ev err = Except.ok (true, s) := by
  obtain ⟨c, fb, kv, hsh, subs, pub, c1, c2, c3⟩ := st
  cases c <;> cases err <;> exact ⟨_, rfl⟩

theorem subscribeToEvents_total (st : ServiceState) (ch : String)
    (err : Bool) :
    ∃ r s, subscribeToEvents st ch err = Except.ok (r, s) := by
  obtain ⟨c, fb, kv, hsh, subs, pub, c1, c2, c3⟩ := st
  cases c <;> cases err <;> exact ⟨_, _, rfl⟩

theorem healthCheck_total (st : ServiceState) (err : Bool) (reply : String) :
    ∃ r s, healthCheck st err reply = Except.ok (r, s) := by
  obtain ⟨c, fb, kv, hsh, subs, pub, c1, c2, c3⟩ := st
  cases c <;> cases err <;> exact ⟨_, _, rfl⟩

/-- C1: every public operation (setSessionState, getSessionState,
deleteSessionState, addParticipant, removeParticipant, getParticipants,
publishEvent, healthCheck) resolves to a definite value for every state and
every backend condition (connected, disconnected, remote error); no call
rejects, and the five write-style operations resolve to `true` on every
path. -/
theorem C1_every_operation_resolves (st : ServiceState)
    (sid ch ev pid reply : String) (v : Json) (p : Participant)
    (ttl now : Int) (e1 e2 e3 e4 e5 e6 e7 e8 e9 : Bool) :
    (∃ s, setSessionState st sid v ttl now e1 = Except.ok (true, s)) ∧
    (∃ r s, getSessionState st sid now e2 = Except.ok (r, s)) ∧
    (∃ s, deleteSessionState st sid e3 = Except.ok (true, s)) ∧
    (∃ s, addParticipant st sid p now e4 e5 = Except.ok (true, s)) ∧
    (∃ s, removeParticipant st sid pid now e6 = Except.ok (true, s)) ∧
    (∃ l s, getParticipants st sid now e7 = Except.ok (l, s)) ∧
    (∃ s, publishEvent st ch ev e8 = Except.ok (true, s)) ∧
    (∃ r s, healthCheck st e9 reply = Except.ok (r, s)) :=
  ⟨setSessionState_total st sid v ttl now e1,
   getSessionState_total st sid now e2,
   deleteSessionState_total st sid e3,
   addParticipant_total st sid p now e4 e5,
   removeParticipant_total st sid pid now e6,
   getParticipants_total st sid now e7,
   publishEvent_total st ch ev e8,
   healthCheck_total st e9 reply⟩

/-- C8: with the default maximum of 5 retries, attempt `n` with
`1 ≤ n ≤ 5` yields the backoff delay `min (n * 100) 3000` ms, and any
`n > 5` yields the stop signal (`return false`), so reconnection ceases
and the service stays in fallback mode. -/
theorem C8_reconnect_backoff (n : Nat) :
    (1 ≤ n → n ≤ maxRetries →
      reconnectStrategy maxRetries n = some (min (n * 100) 3000)) ∧
    (n > maxRetries → reconnectStrategy maxRetries n = none) := by
  constructor
  · intro _ h2
    simp [reconnectStrategy, Nat.not_lt.mpr h2]
  · intro h
    simp [reconnectStrategy, h]

/-- Witness for C8 at attempts 3 and 6. -/
theorem C8_reconnect_backoff_witness :
    reconnectStrategy maxRetries 3 = some (min (3 * 100) 3000) ∧
    reconnectStrategy maxRetries 6 = none :=
  ⟨(C8_reconnect_backoff 3).1 (by decide) (by decide),
   (C8_reconnect_backoff 6).2 (by decide)⟩

/-- C2 counterexample: while disconnected, `subscribeToEvents` returns the
literal `true` (line 272), not `null` as the claim states. -/
theorem C2_counterexample :
    subscribeToEvents (emptyState false) "events" false =
      Except.ok (SubscribeResult.boolRes true, emptyState false) ∧
    SubscribeResult.boolRes true ≠ SubscribeResult.nullRes :=
  ⟨rfl, by decide⟩

/-- C2 (amended): while the connectivity flag is false, `subscribeToEvents`
returns the boolean `true` (neither a subscription handle nor `null`),
leaves the whole state unchanged — in particular no subscription is
registered, so the callback can never be invoked — and never raises;
`null` only arises from a connected subscribe attempt that raises. -/
theorem C2_subscribe_disconnected (st : ServiceState) (ch : String)
    (err : Bool) (h : st.isConnected = false) :
    subscribeToEvents st ch err =
      Except.ok (SubscribeResult.boolRes true, st) := by
  obtain ⟨c, fb, kv, hsh, subs, pub, c1, c2, c3⟩ := st
  cases c
  · rfl
  · exact Bool.noConfusion h

/-- Witness for C2 at a concrete disconnected state. -/
theorem C2_subscribe_disconnected_witness :
    subscribeToEvents (emptyState false) "news" true =
      Except.ok (SubscribeResult.boolRes true, emptyState false) :=
  C2_subscribe_disconnected (emptyState false) "news" true rfl

/-- C3 counterexample: while disconnected, `healthCheck` reports
`mode = "in-memory"` (and `status = "fallback"`), not `mode = "fallback"`
as the claim states. -/
theorem C3_counterexample :
    healthCheck (emptyState false) false "PONG" =
      Except.ok
        (HealthResult.mk "fallback" "in-memory" false none, emptyState false) ∧
    ("in-memory" : String) ≠ "fallback" :=
  ⟨rfl, by decide⟩

/-- C3 (amended): whenever the connectivity flag is false, `healthCheck`
returns `connected = false`, `status = "fallback"` and `mode = "in-memory"`,
regardless of whether the liveness probe would succeed. -/
theorem C3_healthcheck_disconnected (st : ServiceState) (pingErr : Bool)
    (reply : String) (h : st.isConnected = false) :
    healthCheck st pingErr reply =
      Except.ok
        (HealthResult.mk "fallback" "in-memory" false none, st) := by
  obtain ⟨c, fb, kv, hsh, subs, pub, c1, c2, c3⟩ := st
  cases c
  · rfl
  · exact Bool.noConfusion h

/-- Witness for C3 at a concrete disconnected state with a failing probe. -/
theorem C3_healthcheck_disconnected_witness :
    healthCheck (emptyState false) true "PONG" =
      Except.ok
        (HealthResult.mk "fallback" "in-memory" false none,
          emptyState false) :=
  C3_healthcheck_disconnected (emptyState false) true "PONG" rfl

/-- The value a caller observes from `getSessionState` (the method never
rejects; the error arm is unreachable). -/
def sessionResult (st : ServiceState) (sessionId : String) (now : Int)
    (err : Bool) : Option Json :=
  match getSessionState st sessionId now err with
  | Except.ok (r, _) => r
  | Except.error _ => none

/-- C4: for every key, value and positive ttl, `setSessionState` followed
immediately by `getSessionState` (at the same instant `now`) returns the
stored value, on the fallback backend (disconnected) and on the remote
backend (connected, no remote error). -/
theorem C4_set_then_get (st : ServiceState) (sid : String) (v : Json)
    (ttl now : Int) (e1 e2 : Bool) (h : 0 < ttl) :
    sessionResult
      (resultState (setSessionState { st with isConnected := false } sid v ttl now e1))
      sid now e2 = some v ∧
    sessionResult
      (resultState (setSessionState { st with isConnected := true } sid v ttl now false))
      sid now false = some v := by
  obtain ⟨c, fb, kv, hsh, subs, pub, c1, c2, c3⟩ := st
  have hlt : now < now + ttl * 1000 := by
    have : (0 : Int) < ttl * 1000 := mul_pos h (by norm_num)
    linarith
  constructor
  · cases e1 <;> cases e2 <;>
      simp [setSessionState, getSessionState, sessionResult, resultState,
        tryE, rstep, fbSetSession, alGet_alSet_self, hlt]
  · simp [setSessionState, getSessionState, sessionResult, resultState,
      tryE, rstep, remoteGet, aliveKV, alGet_alSet_self, hlt]

/-- Witness for C4 at a concrete store, key and value. -/
theorem C4_set_then_get_witness :
    sessionResult
      (resultState (setSessionState { emptyState true with isConnected := false } "s" Json.null 60 0 false))
      "s" 0 false = some Json.null ∧
    sessionResult
      (resultState (setSessionState { emptyState true with isConnected := true } "s" Json.null 60 0 false))
      "s" 0 false = some Json.null :=
  C4_set_then_get (emptyState true) "s" Json.null 60 0 false false (by norm_num)

/-- A state whose fallback store holds one session entry that expired at
time 50, with the given connectivity flag. -/
def stExpired (conn : Bool) : ServiceState :=
  ⟨conn, [(FKey.session "s", FVal.entry ⟨Json.null, 50⟩)], [], [], [], [],
    false, false, false⟩

/-- C5 counterexample: a remote read error at time 100 falls back on an
entry that expired at time 50; the read returns `none` but the expired
entry is NOT deleted from the fallback store (the catch handler of
`getSessionState`, lines 144-152, never deletes). -/
theorem C5_counterexample :
    getSessionState (stExpired true) "s" 100 true =
      Except.ok (none, stExpired true) ∧
    alGet (stExpired true).fallbackStore (FKey.session "s") =
      some (FVal.entry ⟨Json.null, 50⟩) :=
  ⟨rfl, rfl⟩

/-- C5 (amended): on every fallback-reading path an entry whose expiry is
less than or equal to the current time is treated as absent (`null` is
returned), and absent keys return `null` on every path; the expired entry
is deleted from the fallback store on the disconnected path only — the
error path leaves the store unchanged. -/
theorem C5_expired_entries (st : ServiceState) (sid : String) (now : Int)
    (err : Bool) :
    (st.isConnected = false → fbSessionLookup st sid now = none →
      getSessionState st sid now err =
        Except.ok (none,
          { st with fallbackStore := alDel st.fallbackStore (FKey.session sid) })) ∧
    (st.isConnected = true →
      getSessionState st sid now true =
        Except.ok (fbSessionLookup st sid now, st)) ∧
    (st.isConnected = true →
      remoteGet st.remoteKV (FKey.session sid) now = none →
      getSessionState st sid now false = Except.ok (none, st)) := by
  obtain ⟨c, fb, kv, hsh, subs, pub, c1, c2, c3⟩ := st
  refine ⟨?_, ?_, ?_⟩
  · intro hc hl
    cases c
    · rcases halg : alGet fb (FKey.session sid) with _ | val
      · cases err <;>
          simp [getSessionState, tryE, rstep, halg]
      · cases val with
        | entry e =>
            by_cases he : e.expires > now
            · exfalso
              simp [fbSessionLookup, halg, he] at hl
            · cases err <;>
                simp [getSessionState, tryE, rstep, halg, he]
        | plist ps =>
            cases err <;>
              simp [getSessionState, tryE, rstep, halg]
    · exact Bool.noConfusion hc
  · intro hc
    cases c
    · exact Bool.noConfusion hc
    · rcases halg : alGet fb (FKey.session sid) with _ | val
      · simp [getSessionState, tryE, rstep, fbSessionLookup, halg]
      · cases val with
        | entry e =>
            by_cases he : e.expires > now <;>
              simp [getSessionState, tryE, rstep, fbSessionLookup, halg, he]
        | plist ps =>
            simp [getSessionState, tryE, rstep, fbSessionLookup, halg]
  · intro hc hr
    cases c
    · exact Bool.noConfusion hc
    · simp [getSessionState, tryE, rstep, hr]

/-- Witness for C5: a disconnected read of an expired entry deletes it and
returns `null`; an error-path read of the same entry returns `null` and
leaves the store as it was; a connected read of an absent key returns
`null`. -/
theorem C5_expired_entries_witness :
    getSessionState (stExpired false) "s" 100 false =
      Except.ok (none,
        { stExpired false with
            fallbackStore := alDel (stExpired false).fallbackStore (FKey.session "s") }) ∧
    getSessionState (stExpired true) "s" 100 true =
      Except.ok (fbSessionLookup (stExpired true) "s" 100, stExpired true) ∧
    getSessionState (emptyState true) "s" 100 false =
      Except.ok (none, emptyState true) :=
  ⟨(C5_expired_entries (stExpired false) "s" 100 false).1 rfl rfl,
   ((C5_expired_entries (stExpired true) "s" 100 true).2).1 rfl,
   ((C5_expired_entries (emptyState true) "s" 100 false).2).2 rfl rfl⟩

/-- A Redis hash is well formed when its field keys are distinct and each
field key equals the id of the record stored under it (both hold for every
hash the service itself builds, since records are stored under their id). -/
def hashWF (h : List (FKey × RemoteHashEntry)) (k : FKey) : Prop :=
  match alGet h k with
  | some e =>
      (e.fields.map Prod.fst).Nodup ∧ ∀ fp ∈ e.fields, fp.1 = fp.2.id
  | none => True

/-- The hash entry present at `k` after `hSet k f p`. -/
def hSetEntry (h : List (FKey × RemoteHashEntry)) (k : FKey) (f : String)
    (p : Participant) (now : Int) : RemoteHashEntry :=
  match alGet h k with
  | some e =>
      if aliveH e now then ⟨alSet e.fields f p, e.expiresAt⟩
      else ⟨[(f, p)], none⟩
  | none => ⟨[(f, p)], none⟩

theorem alGet_hSetRemote (h : List (FKey × RemoteHashEntry)) (k : FKey)
    (f : String) (p : Participant) (now : Int) :
    alGet (hSetRemote h k f p now) k = some (hSetEntry h k f p now) := by
  unfold hSetRemote hSetEntry
  rcases halg : alGet h k with _ | e
  · simp [alGet_alSet_self]
  · by_cases ha : aliveH e now <;> simp [ha, alGet_alSet_self]

theorem hSetEntry_none (h : List (FKey × RemoteHashEntry)) (k : FKey)
    (f : String) (p : Participant) (now : Int) (halg : alGet h k = none) :
    hSetEntry h k f p now = ⟨[(f, p)], none⟩ := by
  unfold hSetEntry
  rw [halg]

theorem hSetEntry_some (h : List (FKey × RemoteHashEntry)) (k : FKey)
    (f : String) (p : Participant) (now : Int) (e : RemoteHashEntry)
    (halg : alGet h k = some e) :
    hSetEntry h k f p now =
      if aliveH e now then ⟨alSet e.fields f p, e.expiresAt⟩
      else ⟨[(f, p)], none⟩ := by
  unfold hSetEntry
  rw [halg]

theorem aliveH_hSetEntry (h : List (FKey × RemoteHashEntry)) (k : FKey)
    (f : String) (p : Participant) (now : Int) :
    aliveH (hSetEntry h k f p now) now = true := by
  rcases halg : alGet h k with _ | e
  · rw [hSetEntry_none h k f p now halg]
    rfl
  · rw [hSetEntry_some h k f p now e halg]
    by_cases ha : aliveH e now = true
    · rw [if_pos ha]
      exact ha
    · rw [if_neg ha]
      rfl

theorem alGet_expireRemote_live (h : List (FKey × RemoteHashEntry))
    (k : FKey) (ttl now : Int) (e : RemoteHashEntry)
    (halg : alGet h k = some e) (ha : aliveH e now = true) :
    alGet (expireRemote h k ttl now) k =
      some ⟨e.fields, some (now + ttl * 1000)⟩ := by
  unfold expireRemote
  simp [halg, ha, alGet_alSet_self]

theorem aliveH_after_expire (F : List (String × Participant)) (now ttl : Int)
    (h : 0 < ttl) : aliveH ⟨F, some (now + ttl * 1000)⟩ now = true := by
  have : (0 : Int) < ttl * 1000 := mul_pos h (by norm_num)
  simp [aliveH]
  linarith

theorem mem_alSet {κ α : Type} [DecidableEq κ] (l : List (κ × α)) (k : κ)
    (v : α) (x : κ × α) (hx : x ∈ alSet l k v) : x ∈ l ∨ x = (k, v) := by
  induction l with
  | nil =>
      simp [alSet] at hx
      exact Or.inr hx
  | cons hd tl ih =>
      obtain ⟨k₀, v₀⟩ := hd
      by_cases hk : k₀ = k
      · simp [alSet, hk] at hx
        rcases hx with hx | hx
        · exact Or.inr (by simp [hx])
        · exact Or.inl (by simp [hx])
      · simp [alSet, hk] at hx
        rcases hx with hx | hx
        · exact Or.inl (by simp [hx])
        · rcases ih hx with hm | he
          · exact Or.inl (by simp [hm])
          · exact Or.inr he

theorem alSet_fst_nodup {κ α : Type} [DecidableEq κ] (l : List (κ × α))
    (k : κ) (v : α) (h : (l.map Prod.fst).Nodup) :
    ((alSet l k v).map Prod.fst).Nodup := by
  induction l with
  | nil => simp [alSet]
  | cons hd tl ih =>
      obtain ⟨k₀, v₀⟩ := hd
      rw [List.map_cons, List.nodup_cons] at h
      by_cases hk : k₀ = k
      · subst hk
        rw [show alSet ((k₀, v₀) :: tl) k₀ v = (k₀, v) :: tl from by
              simp [alSet],
            List.map_cons, List.nodup_cons]
        exact h
      · rw [show alSet ((k₀, v₀) :: tl) k v = (k₀, v₀) :: alSet tl k v from by
              simp [alSet, hk],
            List.map_cons, List.nodup_cons]
        refine ⟨?_, ih h.2⟩
        intro hmem
        rcases List.mem_map.mp hmem with ⟨x, hx, hfst⟩
        rcases mem_alSet tl k v x hx with hm | he
        · exact h.1 (hfst ▸ List.mem_map_of_mem Prod.fst hm)
        · apply hk
          rw [he] at hfst
          exact hfst.symm

theorem filter_map_alSet (fields : List (String × Participant))
    (p : Participant) (hnd : (fields.map Prod.fst).Nodup)
    (hwf : ∀ fp ∈ fields, fp.1 = fp.2.id) :
    ((alSet fields p.id p).map Prod.snd).filter (fun q => q.id == p.id) =
      [p] := by
  induction fields with
  | nil => simp [alSet]
  | cons hd tl ih =>
      obtain ⟨f, q⟩ := hd
      rw [List.map_cons, List.nodup_cons] at hnd
      by_cases hf : f = p.id
      · subst hf
        have hnil :
            List.filter (fun q => q.id == p.id) (List.map Prod.snd tl) = [] := by
          refine List.filter_eq_nil_iff.mpr ?_
          intro a ha
          rcases List.mem_map.mp ha with ⟨⟨f', q'⟩, hmem, hsnd⟩
          have hkey : f' = q'.id := hwf (f', q') (List.mem_cons_of_mem _ hmem)
          have hne : f' ≠ p.id := by
            intro hc
            exact hnd.1 (by simpa [hc] using List.mem_map_of_mem Prod.fst hmem)
          rw [← hsnd]
          simpa [beq_iff_eq, ← hkey] using hne
        rw [show alSet ((p.id, q) :: tl) p.id p = (p.id, p) :: tl from by
              simp [alSet],
            List.map_cons]
        show List.filter (fun q => q.id == p.id)
          (p :: List.map Prod.snd tl) = [p]
        simp [List.filter_cons, hnil]
      · have hq : f = q.id := hwf (f, q) (List.mem_cons_self _ _)
        have hqne : (q.id == p.id) = false := by
          rw [beq_eq_false_iff_ne, ← hq]
          exact hf
        rw [show alSet ((f, q) :: tl) p.id p = (f, q) :: alSet tl p.id p from by
              simp [alSet, hf],
            List.map_cons]
        show List.filter (fun q' => q'.id == p.id)
          (q :: List.map Prod.snd (alSet tl p.id p)) = [p]
        rw [List.filter_cons, hqne]
        simpa using ih hnd.2 (fun fp hm => hwf fp (List.mem_cons_of_mem _ hm))

theorem hSetEntry_fields_ok (h : List (FKey × RemoteHashEntry)) (k : FKey)
    (p : Participant) (now : Int) (hwf : hashWF h k) :
    ((hSetEntry h k p.id p now).fields.map Prod.fst).Nodup ∧
    ∀ fp ∈ (hSetEntry h k p.id p now).fields, fp.1 = fp.2.id := by
  rcases halg : alGet h k with _ | e
  · rw [hSetEntry_none h k p.id p now halg]
    refine ⟨by simp, ?_⟩
    intro fp hm
    simp at hm
    simp [hm]
  · have hw : (e.fields.map Prod.fst).Nodup ∧ ∀ fp ∈ e.fields, fp.1 = fp.2.id := by
      unfold hashWF at hwf
      rw [halg] at hwf
      exact hwf
    rw [hSetEntry_some h k p.id p now e halg]
    by_cases ha : aliveH e now = true
    · rw [if_pos ha]
      refine ⟨alSet_fst_nodup e.fields p.id p hw.1, ?_⟩
      intro fp hm
      rcases mem_alSet e.fields p.id p fp hm with hmem | heq
      · exact hw.2 fp hmem
      · rw [heq]
    · rw [if_neg ha]
      refine ⟨by simp, ?_⟩
      intro fp hm
      simp at hm
      simp [hm]

theorem fbGetParticipants_fbAdd (store : List (FKey × FVal)) (sid : String)
    (p : Participant) :
    fbGetParticipants (fbAddParticipant store sid p) sid =
      (fbGetParticipants store sid).filter (fun q => !(q.id == p.id)) ++ [p] := by
  unfold fbGetParticipants fbAddParticipant
  rw [alGet_alSet_self]
  rfl

theorem filter_upsert (l : List Participant) (p : Participant) :
    (l.filter (fun q => !(q.id == p.id)) ++ [p]).filter
      (fun q => q.id == p.id) = [p] := by
  rw [List.filter_append]
  have h1 : (l.filter (fun q => !(q.id == p.id))).filter
      (fun q => q.id == p.id) = [] := by
    rw [List.filter_filter]
    refine List.filter_eq_nil_iff.mpr ?_
    intro a ha
    simp
  simp [h1]

/-- C6: adding two participant records that share an id leaves exactly one
record with that id in `getParticipants`, namely the second one (latest
payload wins), on the fallback backend (disconnected, any error flags) and
on the remote backend (connected, no remote errors, starting from a
well-formed hash). -/
theorem C6_upsert_by_id (st : ServiceState) (sid : String)
    (r1 r2 : Participant) (now : Int) (e1 e2 e3 e4 e5 : Bool)
    (hid : r1.id = r2.id)
    (hwf : hashWF st.remoteHash (FKey.participants sid)) :
    (partsResult
        (resultState (addParticipant
          (resultState (addParticipant { st with isConnected := false } sid r1 now e1 e2))
          sid r2 now e3 e4))
        sid now e5).filter (fun q => q.id == r2.id) = [r2] ∧
    (partsResult
        (resultState (addParticipant
          (resultState (addParticipant { st with isConnected := true } sid r1 now false false))
          sid r2 now false false))
        sid now false).filter (fun q => q.id == r2.id) = [r2] := by
  obtain ⟨c, fb, kv, hsh, subs, pub, c1, c2, c3⟩ := st
  constructor
  · have hA :
        partsResult
          (resultState (addParticipant
            (resultState (addParticipant
              ⟨false, fb, kv, hsh, subs, pub, c1, c2, c3⟩ sid r1 now e1 e2))
            sid r2 now e3 e4))
          sid now e5 =
        fbGetParticipants
          (fbAddParticipant (fbAddParticipant fb sid r1) sid r2) sid := rfl
    rw [hA, fbGetParticipants_fbAdd]
    exact filter_upsert _ r2
  · have h1 :
        alGet (hSetRemote hsh (FKey.participants sid) r1.id r1 now)
          (FKey.participants sid) =
        some (hSetEntry hsh (FKey.participants sid) r1.id r1 now) :=
      alGet_hSetRemote hsh (FKey.participants sid) r1.id r1 now
    have h1a :
        aliveH (hSetEntry hsh (FKey.participants sid) r1.id r1 now) now =
          true :=
      aliveH_hSetEntry hsh (FKey.participants sid) r1.id r1 now
    have h2 :
        alGet
          (expireRemote (hSetRemote hsh (FKey.participants sid) r1.id r1 now)
            (FKey.participants sid) 3600 now)
          (FKey.participants sid) =
        some ⟨(hSetEntry hsh (FKey.participants sid) r1.id r1 now).fields,
          some (now + 3600 * 1000)⟩ :=
      alGet_expireRemote_live _ _ _ _ _ h1 h1a
    have h2a :
        aliveH
          (⟨(hSetEntry hsh (FKey.participants sid) r1.id r1 now).fields,
            some (now + 3600 * 1000)⟩ : RemoteHashEntry) now = true :=
      aliveH_after_expire _ now 3600 (by norm_num)
    have h3 :
        alGet
          (hSetRemote
            (expireRemote (hSetRemote hsh (FKey.participants sid) r1.id r1 now)
              (FKey.participants sid) 3600 now)
            (FKey.participants sid) r2.id r2 now)
          (FKey.participants sid) =
        some (hSetEntry
          (expireRemote (hSetRemote hsh (FKey.participants sid) r1.id r1 now)
            (FKey.participants sid) 3600 now)
          (FKey.participants sid) r2.id r2 now) :=
      alGet_hSetRemote _ _ _ _ _
    have h3eq :
        hSetEntry
          (expireRemote (hSetRemote hsh (FKey.participants sid) r1.id r1 now)
            (FKey.participants sid) 3600 now)
          (FKey.participants sid) r2.id r2 now =
        ⟨alSet (hSetEntry hsh (FKey.participants sid) r1.id r1 now).fields
          r2.id r2, some (now + 3600 * 1000)⟩ := by
      rw [hSetEntry_some _ _ _ _ _ _ h2, if_pos h2a]
    have h3a :
        aliveH
          (hSetEntry
            (expireRemote (hSetRemote hsh (FKey.participants sid) r1.id r1 now)
              (FKey.participants sid) 3600 now)
            (FKey.participants sid) r2.id r2 now) now = true :=
      aliveH_hSetEntry _ _ _ _ _
    have h4 :
        alGet
          (expireRemote
            (hSetRemote
              (expireRemote (hSetRemote hsh (FKey.participants sid) r1.id r1 now)
                (FKey.participants sid) 3600 now)
              (FKey.participants sid) r2.id r2 now)
            (FKey.participants sid) 3600 now)
          (FKey.participants sid) =
        some ⟨(hSetEntry
          (expireRemote (hSetRemote hsh (FKey.participants sid) r1.id r1 now)
            (FKey.participants sid) 3600 now)
          (FKey.participants sid) r2.id r2 now).fields,
          some (now + 3600 * 1000)⟩ :=
      alGet_expireRemote_live _ _ _ _ _ h3 h3a
    have hview :
        partsResult
          (resultState (addParticipant
            (resultState (addParticipant
              ⟨true, fb, kv, hsh, subs, pub, c1, c2, c3⟩ sid r1 now false false))
            sid r2 now false false))
          sid now false =
        hGetAllRemote
          (expireRemote
            (hSetRemote
              (expireRemote (hSetRemote hsh (FKey.participants sid) r1.id r1 now)
                (FKey.participants sid) 3600 now)
              (FKey.participants sid) r2.id r2 now)
            (FKey.participants sid) 3600 now)
          (FKey.participants sid) now := rfl
    have h5 :
        hGetAllRemote
          (expireRemote
            (hSetRemote
              (expireRemote (hSetRemote hsh (FKey.participants sid) r1.id r1 now)
                (FKey.participants sid) 3600 now)
              (FKey.participants sid) r2.id r2 now)
            (FKey.participants sid) 3600 now)
          (FKey.participants sid) now =
        ((hSetEntry
          (expireRemote (hSetRemote hsh (FKey.participants sid) r1.id r1 now)
            (FKey.participants sid) 3600 now)
          (FKey.participants sid) r2.id r2 now).fields).map Prod.snd := by
      have hAl :
          aliveH
            (⟨(hSetEntry
                (expireRemote (hSetRemote hsh (FKey.participants sid) r1.id r1 now)
                  (FKey.participants sid) 3600 now)
                (FKey.participants sid) r2.id r2 now).fields,
              some (now + 3600 * 1000)⟩ : RemoteHashEntry) now = true :=
        aliveH_after_expire _ now 3600 (by norm_num)
      simp only [hGetAllRemote, h4]
      rw [if_pos hAl]
    rw [hview, h5, h3eq]
    exact filter_map_alSet
      (hSetEntry hsh (FKey.participants sid) r1.id r1 now).fields r2
      (hSetEntry_fields_ok hsh (FKey.participants sid) r1 now hwf).1
      (hSetEntry_fields_ok hsh (FKey.participants sid) r1 now hwf).2

/-- Witness for C6: two records with id `"p1"` added to an empty store. -/
theorem C6_upsert_by_id_witness :
    (partsResult
        (resultState (addParticipant
          (resultState (addParticipant { emptyState true with isConnected := false }
            "s" (Participant.mk "p1" Json.null) 0 false false))
          "s" (Participant.mk "p1" (Json.bool true)) 0 false false))
        "s" 0 false).filter
      (fun q => q.id == (Participant.mk "p1" (Json.bool true)).id) =
      [Participant.mk "p1" (Json.bool true)] ∧
    (partsResult
        (resultState (addParticipant
          (resultState (addParticipant { emptyState true with isConnected := true }
            "s" (Participant.mk "p1" Json.null) 0 false false))
          "s" (Participant.mk "p1" (Json.bool true)) 0 false false))
        "s" 0 false).filter
      (fun q => q.id == (Participant.mk "p1" (Json.bool true)).id) =
      [Participant.mk "p1" (Json.bool true)] :=
  C6_upsert_by_id (emptyState true) "s" (Participant.mk "p1" Json.null)
    (Participant.mk "p1" (Json.bool true)) 0 false false false false false
    rfl trivial

theorem alGet_eq_none {κ α : Type} [DecidableEq κ] (l : List (κ × α)) (k : κ)
    (h : k ∉ l.map Prod.fst) : alGet l k = none := by
  induction l with
  | nil => rfl
  | cons hd tl ih =>
      obtain ⟨k₀, v₀⟩ := hd
      rw [List.map_cons] at h
      have h1 : ¬k₀ = k := by
        intro hc
        exact h (by rw [hc]; exact List.mem_cons_self _ _)
      rw [show alGet ((k₀, v₀) :: tl) k = alGet tl k from by simp [alGet, h1]]
      exact ih (fun hm => h (List.mem_cons_of_mem _ hm))

theorem hDelRemote_none (h : List (FKey × RemoteHashEntry)) (k : FKey)
    (f : String) (now : Int) (halg : alGet h k = none) :
    hDelRemote h k f now = h := by
  unfold hDelRemote
  rw [halg]

theorem hDelRemote_some (h : List (FKey × RemoteHashEntry)) (k : FKey)
    (f : String) (now : Int) (e : RemoteHashEntry)
    (halg : alGet h k = some e) :
    hDelRemote h k f now =
      if aliveH e now then alSet h k ⟨alDel e.fields f, e.expiresAt⟩
      else h := by
  unfold hDelRemote
  rw [halg]

/-- Deleting a field never present leaves the remote hash unchanged. -/
theorem hDelRemote_absent (h : List (FKey × RemoteHashEntry)) (k : FKey)
    (pid : String) (now : Int)
    (hno : ∀ e, alGet h k = some e → pid ∉ e.fields.map Prod.fst) :
    hDelRemote h k pid now = h := by
  rcases halg : alGet h k with _ | e
  · exact hDelRemote_none h k pid now halg
  · rw [hDelRemote_some h k pid now e halg]
    by_cases ha : aliveH e now = true
    · rw [if_pos ha, alDel_not_mem e.fields pid (alGet_eq_none _ _ (hno e halg))]
      exact alSet_self h k e halg
    · rw [if_neg ha]

/-- Removing an id that has no record leaves the observable fallback
collection unchanged. -/
theorem fbGetParticipants_fbRemove_absent (store : List (FKey × FVal))
    (sid pid : String)
    (h : ∀ q ∈ fbGetParticipants store sid, q.id ≠ pid) :
    fbGetParticipants (fbRemoveParticipant store sid pid) sid =
      fbGetParticipants store sid := by
  have hfl : (fbGetParticipants store sid).filter (fun q => !(q.id == pid)) =
      fbGetParticipants store sid :=
    List.filter_eq_self.mpr (fun a ha => by simpa using h a ha)
  rw [show fbRemoveParticipant store sid pid =
        alSet store (FKey.participants sid)
          (FVal.plist (fbGetParticipants store sid)) from by
      unfold fbRemoveParticipant
      rw [hfl]]
  unfold fbGetParticipants
  rw [alGet_alSet_self]

/-- The observable participant list only depends on the connectivity flag,
the fallback store and the remote hash. -/
theorem partsResult_congr (c : Bool) (fb fb2 : List (FKey × FVal))
    (kv kv2 : List (FKey × RemoteKVEntry))
    (hsh hsh2 : List (FKey × RemoteHashEntry)) (subs subs2 : List String)
    (pub pub2 : List (String × String)) (c1 c12 c2 c22 c3 c32 : Bool)
    (sid : String) (now : Int) (gErr : Bool)
    (hf : fbGetParticipants fb2 sid = fbGetParticipants fb sid)
    (hh : hsh2 = hsh) :
    partsResult ⟨c, fb2, kv2, hsh2, subs2, pub2, c12, c22, c32⟩ sid now gErr =
      partsResult ⟨c, fb, kv, hsh, subs, pub, c1, c2, c3⟩ sid now gErr := by
  cases c
  · exact hf
  · cases gErr
    · exact congrArg (fun x => hGetAllRemote x (FKey.participants sid) now) hh
    · exact hf

/-- C7: removing a participant id that was never added does not raise,
returns `true`, and leaves the observable result of `getParticipants`
unchanged (at any time, on any subsequent read path). -/
theorem C7_remove_ghost (st : ServiceState) (sid pid : String) (now : Int)
    (err : Bool)
    (hfb : ∀ q ∈ fbParts st sid, q.id ≠ pid)
    (hrh : ∀ e, alGet st.remoteHash (FKey.participants sid) = some e →
      pid ∉ e.fields.map Prod.fst) :
    (∃ st2, removeParticipant st sid pid now err = Except.ok (true, st2)) ∧
    ∀ now2 gErr,
      partsResult (resultState (removeParticipant st sid pid now err))
        sid now2 gErr = partsResult st sid now2 gErr := by
  obtain ⟨c, fb, kv, hsh, subs, pub, c1, c2, c3⟩ := st
  refine ⟨removeParticipant_total _ sid pid now err, ?_⟩
  intro now2 gErr
  cases c
  · exact partsResult_congr false fb _ kv _ hsh _ subs _ pub _ c1 _ c2 _ c3 _
      sid now2 gErr (fbGetParticipants_fbRemove_absent fb sid pid hfb) rfl
  · cases err
    · exact partsResult_congr true fb _ kv _ hsh _ subs _ pub _ c1 _ c2 _ c3 _
        sid now2 gErr rfl (hDelRemote_absent hsh (FKey.participants sid) pid now hrh)
    · exact partsResult_congr true fb _ kv _ hsh _ subs _ pub _ c1 _ c2 _ c3 _
        sid now2 gErr (fbGetParticipants_fbRemove_absent fb sid pid hfb) rfl

/-- Witness for C7: removing the never-added id `"ghost"` from an empty
disconnected store. -/
theorem C7_remove_ghost_witness :
    (∃ st2, removeParticipant (emptyState false) "s" "ghost" 0 false =
      Except.ok (true, st2)) ∧
    partsResult
      (resultState (removeParticipant (emptyState false) "s" "ghost" 0 false))
      "s" 7 true = partsResult (emptyState false) "s" 7 true :=
  ⟨(C7_remove_ghost (emptyState false) "s" "ghost" 0 false
      (by intro q hq; exact absurd hq (List.not_mem_nil q))
      (by intro e he; simp [alGet] at he)).1,
   (C7_remove_ghost (emptyState false) "s" "ghost" 0 false
      (by intro q hq; exact absurd hq (List.not_mem_nil q))
      (by intro e he; simp [alGet] at he)).2 7 true⟩


/-- C9 counterexample: when the command client's close raises, `disconnect`
never attempts the publisher and subscriber closes (the single `try` block,
lines 319-327, aborts at the first failure), yet the fallback store is still
cleared; so "closes all three connections" fails when a close fails. -/
theorem C9_counterexample :
    disconnect (stExpired true) true false false =
      Except.ok ((), emptyState true) ∧
    (emptyState true).publisherClosed = false ∧
    (emptyState true).subscriberClosed = false ∧
    (emptyState true).clientClosed = false :=
  ⟨rfl, rfl, rfl, rfl⟩

/-- C9 (amended): `disconnect()` never raises and always finishes with the
fallback store empty; it attempts the three closes in order (command
client, publisher, subscriber), a failing close is logged and aborts the
remaining closes, and all three connections are closed exactly when no
close fails. -/
theorem C9_disconnect (st : ServiceState) (e1 e2 e3 : Bool) :
    ∃ s, disconnect st e1 e2 e3 = Except.ok ((), s) ∧
      s.fallbackStore = [] ∧
      (e1 = true → s.clientClosed = st.clientClosed ∧
        s.publisherClosed = st.publisherClosed ∧
        s.subscriberClosed = st.subscriberClosed) ∧
      (e1 = false → s.clientClosed = true) ∧
      (e1 = false → e2 = true → s.publisherClosed = st.publisherClosed ∧
        s.subscriberClosed = st.subscriberClosed) ∧
      (e1 = false → e2 = false → s.publisherClosed = true) ∧
      (e1 = false → e2 = false → e3 = true →
        s.subscriberClosed = st.subscriberClosed) ∧
      (e1 = false → e2 = false → e3 = false → s.subscriberClosed = true) := by
  obtain ⟨c, fb, kv, hsh, subs, pub, c1, c2, c3⟩ := st
  cases e1 <;> cases e2 <;> cases e3 <;>
    (refine ⟨_, rfl, rfl, ?_, ?_, ?_, ?_, ?_, ?_⟩ <;> simp)

/-- One caller-visible operation of the service, with its arguments, the
time of the call and the error flags of its remote calls. -/
inductive Op where
  | setSession (sid : String) (v : Json) (ttl now : Int) (err : Bool) : Op
  | getSession (sid : String) (now : Int) (err : Bool) : Op
  | delSession (sid : String) (err : Bool) : Op
  | addPart (sid : String) (p : Participant) (now : Int) (err1 err2 : Bool) : Op
  | removePart (sid pid : String) (now : Int) (err : Bool) : Op
  | getParts (sid : String) (now : Int) (err : Bool) : Op
  | publish (ch ev : String) (err : Bool) : Op
  | subscribe (ch : String) (err : Bool) : Op
  | health (err : Bool) (reply : String) : Op
  | discon (e1 e2 e3 : Bool) : Op
  | setConn (b : Bool) : Op

/-- The service state after running one operation. -/
def applyOp (st : ServiceState) : Op → ServiceState
  | Op.setSession sid v ttl now err =>
      resultState (setSessionState st sid v ttl now err)
  | Op.getSession sid now err => resultState (getSessionState st sid now err)
  | Op.delSession sid err => resultState (deleteSessionState st sid err)
  | Op.addPart sid p now er1 er2 =>
      resultState (addParticipant st sid p now er1 er2)
  | Op.removePart sid pid now err =>
      resultState (removeParticipant st sid pid now err)
  | Op.getParts sid now err => resultState (getParticipants st sid now err)
  | Op.publish ch ev err => resultState (publishEvent st ch ev err)
  | Op.subscribe ch err => resultState (subscribeToEvents st ch err)
  | Op.health err reply => resultState (healthCheck st err reply)
  | Op.discon e1 e2 e3 => resultState (disconnect st e1 e2 e3)
  | Op.setConn b => { st with isConnected := b }

/-- The operations that are allowed to make the fallback record of `pid` in
session `sid` disappear: an overwriting add, its removal, or `disconnect`. -/
def mayDrop (op : Op) (sid pid : String) : Bool :=
  match op with
  | Op.addPart sid2 r _ _ _ => sid2 == sid && (r.id == pid)
  | Op.removePart sid2 pid2 _ _ => sid2 == sid && (pid2 == pid)
  | Op.discon _ _ _ => true
  | _ => false

theorem fbGetParticipants_alSet_other (store : List (FKey × FVal)) (k : FKey)
    (val : FVal) (sid : String) (hk : k ≠ FKey.participants sid) :
    fbGetParticipants (alSet store k val) sid =
      fbGetParticipants store sid := by
  unfold fbGetParticipants
  rw [alGet_alSet_ne store k (FKey.participants sid) val (Ne.symm hk)]

theorem fbGetParticipants_alDel_other (store : List (FKey × FVal)) (k : FKey)
    (sid : String) (hk : k ≠ FKey.participants sid) :
    fbGetParticipants (alDel store k) sid =
      fbGetParticipants store sid := by
  unfold fbGetParticipants
  rw [alGet_alDel_ne store k (FKey.participants sid) (Ne.symm hk)]

theorem fbGetParticipants_fbRemoveList (store : List (FKey × FVal))
    (sid pid : String) :
    fbGetParticipants (fbRemoveParticipant store sid pid) sid =
      (fbGetParticipants store sid).filter (fun q => !(q.id == pid)) := by
  unfold fbGetParticipants fbRemoveParticipant
  rw [alGet_alSet_self]
  rfl

theorem mem_fbAdd_same (store : List (FKey × FVal)) (sid : String)
    (r p : Participant) (hne : p.id ≠ r.id)
    (hp : p ∈ fbGetParticipants store sid) :
    p ∈ fbGetParticipants (fbAddParticipant store sid r) sid := by
  rw [fbGetParticipants_fbAdd]
  exact List.mem_append_left _ (List.mem_filter.mpr ⟨hp, by simp [hne]⟩)

theorem mem_fbAdd_other (store : List (FKey × FVal)) (sid sid2 : String)
    (r p : Participant) (hs : sid2 ≠ sid)
    (hp : p ∈ fbGetParticipants store sid) :
    p ∈ fbGetParticipants (fbAddParticipant store sid2 r) sid := by
  unfold fbAddParticipant
  rw [fbGetParticipants_alSet_other _ _ _ _ (by simp [hs])]
  exact hp

theorem mem_fbRemove_same (store : List (FKey × FVal)) (sid pid : String)
    (p : Participant) (hne : p.id ≠ pid)
    (hp : p ∈ fbGetParticipants store sid) :
    p ∈ fbGetParticipants (fbRemoveParticipant store sid pid) sid := by
  rw [fbGetParticipants_fbRemoveList]
  exact List.mem_filter.mpr ⟨hp, by simp [hne]⟩

theorem mem_fbRemove_other (store : List (FKey × FVal)) (sid sid2 pid : String)
    (p : Participant) (hs : sid2 ≠ sid)
    (hp : p ∈ fbGetParticipants store sid) :
    p ∈ fbGetParticipants (fbRemoveParticipant store sid2 pid) sid := by
  unfold fbRemoveParticipant
  rw [fbGetParticipants_alSet_other _ _ _ _ (by simp [hs])]
  exact hp


theorem setSessionState_fallback (st : ServiceState) (sid2 : String)
    (v : Json) (ttl now2 : Int) (err : Bool) :
    (resultState (setSessionState st sid2 v ttl now2 err)).fallbackStore =
      st.fallbackStore ∨
    (resultState (setSessionState st sid2 v ttl now2 err)).fallbackStore =
      alSet st.fallbackStore (FKey.session sid2)
        (FVal.entry ⟨v, now2 + ttl * 1000⟩) := by
  obtain ⟨c, fb, kv, hsh, subs, pub, c1, c2, c3⟩ := st
  cases c <;> cases err <;> first | exact Or.inl rfl | exact Or.inr rfl

theorem deleteSessionState_fallback (st : ServiceState) (sid2 : String)
    (err : Bool) :
    (resultState (deleteSessionState st sid2 err)).fallbackStore =
      st.fallbackStore ∨
    (resultState (deleteSessionState st sid2 err)).fallbackStore =
      alDel st.fallbackStore (FKey.session sid2) := by
  obtain ⟨c, fb, kv, hsh, subs, pub, c1, c2, c3⟩ := st
  cases c <;> cases err <;> first | exact Or.inl rfl | exact Or.inr rfl

theorem getSessionState_fallback (st : ServiceState) (sid2 : String)
    (now2 : Int) (err : Bool) :
    (resultState (getSessionState st sid2 now2 err)).fallbackStore =
      st.fallbackStore ∨
    (resultState (getSessionState st sid2 now2 err)).fallbackStore =
      alDel st.fallbackStore (FKey.session sid2) := by
  obtain ⟨c, fb, kv, hsh, subs, pub, c1, c2, c3⟩ := st
  cases c
  · rcases halg : alGet fb (FKey.session sid2) with _ | val
    · right
      simp [getSessionState, tryE, resultState, halg]
    · cases val with
      | entry e =>
          by_cases he : e.expires > now2
          · left
            simp [getSessionState, tryE, resultState, halg, he]
          · right
            simp [getSessionState, tryE, resultState, halg, he]
      | plist ps =>
          right
          simp [getSessionState, tryE, resultState, halg]
  · cases err
    · exact Or.inl rfl
    · rcases halg : alGet fb (FKey.session sid2) with _ | val
      · left
        simp [getSessionState, tryE, rstep, resultState, halg]
      · cases val with
        | entry e =>
            by_cases he : e.expires > now2
            · left
              simp [getSessionState, tryE, rstep, resultState, halg, he]
            · left
              simp [getSessionState, tryE, rstep, resultState, halg, he]
        | plist ps =>
            left
            simp [getSessionState, tryE, rstep, resultState, halg]

theorem addParticipant_fallback (st : ServiceState) (sid2 : String)
    (r : Participant) (now2 : Int) (er1 er2 : Bool) :
    (resultState (addParticipant st sid2 r now2 er1 er2)).fallbackStore =
      st.fallbackStore ∨
    (resultState (addParticipant st sid2 r now2 er1 er2)).fallbackStore =
      fbAddParticipant st.fallbackStore sid2 r := by
  obtain ⟨c, fb, kv, hsh, subs, pub, c1, c2, c3⟩ := st
  cases c <;> cases er1 <;> cases er2 <;>
    first | exact Or.inl rfl | exact Or.inr rfl

theorem removeParticipant_fallback (st : ServiceState) (sid2 pid2 : String)
    (now2 : Int) (err : Bool) :
    (resultState (removeParticipant st sid2 pid2 now2 err)).fallbackStore =
      st.fallbackStore ∨
    (resultState (removeParticipant st sid2 pid2 now2 err)).fallbackStore =
      fbRemoveParticipant st.fallbackStore sid2 pid2 := by
  obtain ⟨c, fb, kv, hsh, subs, pub, c1, c2, c3⟩ := st
  cases c <;> cases err <;> first | exact Or.inl rfl | exact Or.inr rfl

/-- C10: the fallback participant collections carry no expiry: a record
`p` present in the fallback collection of session `sid` survives every
operation, at any time, except a removeParticipant of its id in that
session, an overwriting addParticipant with the same id, or `disconnect`
clearing the whole store; adding while disconnected puts the record in the
fallback collection; by contrast a connected errorless add re-stamps the
session's remote participants hash with a fresh one-hour expiry. -/
theorem C10_fallback_no_expiry (st : ServiceState) (sid : String)
    (p : Participant) (op : Op) (now : Int) (ea eb : Bool)
    (hop : mayDrop op sid p.id = false) :
    (p ∈ fbParts st sid → p ∈ fbParts (applyOp st op) sid) ∧
    (st.isConnected = false →
      p ∈ fbParts (resultState (addParticipant st sid p now ea eb)) sid) ∧
    (st.isConnected = true →
      ∃ e, alGet
          (resultState (addParticipant st sid p now false false)).remoteHash
          (FKey.participants sid) = some e ∧
        e.expiresAt = some (now + 3600 * 1000)) := by
  obtain ⟨c, fb, kv, hsh, subs, pub, c1, c2, c3⟩ := st
  refine ⟨?_, ?_, ?_⟩
  · intro hp
    cases op with
    | setSession sid2 v ttl now2 err =>
        rcases setSessionState_fallback ⟨c, fb, kv, hsh, subs, pub, c1, c2, c3⟩
            sid2 v ttl now2 err with h | h
        · show p ∈ fbGetParticipants
            (resultState (setSessionState ⟨c, fb, kv, hsh, subs, pub, c1, c2, c3⟩
              sid2 v ttl now2 err)).fallbackStore sid
          rw [h]
          exact hp
        · show p ∈ fbGetParticipants
            (resultState (setSessionState ⟨c, fb, kv, hsh, subs, pub, c1, c2, c3⟩
              sid2 v ttl now2 err)).fallbackStore sid
          rw [h, fbGetParticipants_alSet_other _ _ _ _
            (fun hc => FKey.noConfusion hc)]
          exact hp
    | getSession sid2 now2 err =>
        rcases getSessionState_fallback ⟨c, fb, kv, hsh, subs, pub, c1, c2, c3⟩
            sid2 now2 err with h | h
        · show p ∈ fbGetParticipants
            (resultState (getSessionState ⟨c, fb, kv, hsh, subs, pub, c1, c2, c3⟩
              sid2 now2 err)).fallbackStore sid
          rw [h]
          exact hp
        · show p ∈ fbGetParticipants
            (resultState (getSessionState ⟨c, fb, kv, hsh, subs, pub, c1, c2, c3⟩
              sid2 now2 err)).fallbackStore sid
          rw [h, fbGetParticipants_alDel_other _ _ _
            (fun hc => FKey.noConfusion hc)]
          exact hp
    | delSession sid2 err =>
        rcases deleteSessionState_fallback ⟨c, fb, kv, hsh, subs, pub, c1, c2, c3⟩
            sid2 err with h | h
        · show p ∈ fbGetParticipants
            (resultState (deleteSessionState ⟨c, fb, kv, hsh, subs, pub, c1, c2, c3⟩
              sid2 err)).fallbackStore sid
          rw [h]
          exact hp
        · show p ∈ fbGetParticipants
            (resultState (deleteSessionState ⟨c, fb, kv, hsh, subs, pub, c1, c2, c3⟩
              sid2 err)).fallbackStore sid
          rw [h, fbGetParticipants_alDel_other _ _ _
            (fun hc => FKey.noConfusion hc)]
          exact hp
    | addPart sid2 r now2 er1 er2 =>
        rcases addParticipant_fallback ⟨c, fb, kv, hsh, subs, pub, c1, c2, c3⟩
            sid2 r now2 er1 er2 with h | h
        · show p ∈ fbGetParticipants
            (resultState (addParticipant ⟨c, fb, kv, hsh, subs, pub, c1, c2, c3⟩
              sid2 r now2 er1 er2)).fallbackStore sid
          rw [h]
          exact hp
        · show p ∈ fbGetParticipants
            (resultState (addParticipant ⟨c, fb, kv, hsh, subs, pub, c1, c2, c3⟩
              sid2 r now2 er1 er2)).fallbackStore sid
          rw [h]
          by_cases hs : sid2 = sid
          · subst hs
            have hr : (r.id == p.id) = false := by
              simpa [mayDrop] using hop
            exact mem_fbAdd_same fb sid2 r p
              (fun hc => by simp [hc] at hr) hp
          · exact mem_fbAdd_other fb sid sid2 r p hs hp
    | removePart sid2 pid2 now2 err =>
        rcases removeParticipant_fallback ⟨c, fb, kv, hsh, subs, pub, c1, c2, c3⟩
            sid2 pid2 now2 err with h | h
        · show p ∈ fbGetParticipants
            (resultState (removeParticipant ⟨c, fb, kv, hsh, subs, pub, c1, c2, c3⟩
              sid2 pid2 now2 err)).fallbackStore sid
          rw [h]
          exact hp
        · show p ∈ fbGetParticipants
            (resultState (removeParticipant ⟨c, fb, kv, hsh, subs, pub, c1, c2, c3⟩
              sid2 pid2 now2 err)).fallbackStore sid
          rw [h]
          by_cases hs : sid2 = sid
          · subst hs
            have hr : (pid2 == p.id) = false := by
              simpa [mayDrop] using hop
            exact mem_fbRemove_same fb sid2 pid2 p
              (fun hc => by simp [hc] at hr) hp
          · exact mem_fbRemove_other fb sid sid2 pid2 p hs hp
    | getParts sid2 now2 err =>
        cases c <;> cases err <;> exact hp
    | publish ch ev err =>
        cases c <;> cases err <;> exact hp
    | subscribe ch err =>
        cases c <;> cases err <;> exact hp
    | health err reply =>
        cases c <;> cases err <;> exact hp
    | discon e1 e2 e3 =>
        simp [mayDrop] at hop
    | setConn b =>
        exact hp
  · intro hc
    cases c
    · show p ∈ fbGetParticipants (fbAddParticipant fb sid p) sid
      rw [fbGetParticipants_fbAdd]
      exact List.mem_append_right _ (List.mem_singleton.mpr rfl)
    · exact Bool.noConfusion hc
  · intro hc
    cases c
    · exact Bool.noConfusion hc
    · refine ⟨⟨(hSetEntry hsh (FKey.participants sid) p.id p now).fields,
        some (now + 3600 * 1000)⟩, ?_, rfl⟩
      exact alGet_expireRemote_live _ _ _ _ _
        (alGet_hSetRemote hsh (FKey.participants sid) p.id p now)
        (aliveH_hSetEntry hsh (FKey.participants sid) p.id p now)

/-- A disconnected state holding the record `p1` for session `"s"` in the
fallback store. -/
def stWithP : ServiceState :=
  ⟨false, [(FKey.participants "s", FVal.plist [Participant.mk "p1" Json.null])],
    [], [], [], [], false, false, false⟩

/-- Witness for C10: the record survives a setSessionState on the same
session; a disconnected add inserts it; a connected add stamps the
one-hour TTL. -/
theorem C10_fallback_no_expiry_witness :
    (Participant.mk "p1" Json.null ∈
      fbParts (applyOp stWithP (Op.setSession "s" Json.null 60 99999 false)) "s") ∧
    (Participant.mk "p1" Json.null ∈
      fbParts (resultState (addParticipant (emptyState false) "s"
        (Participant.mk "p1" Json.null) 0 false false)) "s") ∧
    (∃ e, alGet
        (resultState (addParticipant (emptyState true) "s"
          (Participant.mk "p1" Json.null) 0 false false)).remoteHash
        (FKey.participants "s") = some e ∧
      e.expiresAt = some ((0 : Int) + 3600 * 1000)) :=
  ⟨(C10_fallback_no_expiry stWithP "s" (Participant.mk "p1" Json.null)
      (Op.setSession "s" Json.null 60 99999 false) 0 false false rfl).1
      (List.mem_singleton.mpr rfl),
   (C10_fallback_no_expiry (emptyState false) "s" (Participant.mk "p1" Json.null)
      (Op.health false "PONG") 0 false false rfl).2.1 rfl,
   (C10_fallback_no_expiry (emptyState true) "s" (Participant.mk "p1" Json.null)
      (Op.health false "PONG") 0 false false rfl).2.2 rfl⟩

end RedisService
